import Mathlib

/-
  Shallow embedding of the task-scheduler core (Rust sources under src/).

  Conventions of the embedding:
  * UTC timestamps (chrono DateTime<Utc>) are modelled as Int seconds.
  * Uuid values are modelled as Nat.
  * serde_json::Value is modelled by the inductive Json below.
  * The SQLite store is modelled as two lists of rows (tasks, executions);
    SQL statements are translated operation by operation from
    src/src/db/queries.rs and src/src/api/mod.rs.
  * A sqlx transaction is modelled by computing on a copy of the store and
    installing the copy only on commit; every early-error return yields the
    original store (rollback-on-drop).
  * I/O failures that the embedding cannot derive structurally (connection
    drops during the execution INSERT, the mutation UPDATE, or COMMIT) are
    injected through an explicit Faults record; the structural
    foreign-key check (does the referenced task row exist) is derived from
    the store itself, as SQLite enforces it.
  * The action executor (TaskService::execute_logic, whose body is not part
    of the core: the spec treats it as an opaque capability) is modelled as
    an explicit parameter of type Except String Json: ok carries the output
    value, error carries the failure reason string.
-/

namespace Scheduler

/-- Minimal JSON value type mirroring the shapes serde_json::Value takes in
the scheduler core. -/
inductive Json where
  | null : Json
  | str : String → Json
  | num : Int → Json
  | obj : List (String × Json) → Json

/-- Lookup of a top-level key in a JSON object; none on non-objects. -/
def Json.getKey (j : Json) (k : String) : Option Json :=
  match j with
  | .obj fields => fields.lookup k
  | _ => none

/-- TaskType from src/src/domain/mod.rs. -/
inductive TaskType where
  | Once : TaskType
  | Interval : TaskType
deriving DecidableEq

/-- ExecutionStatus from src/src/domain/mod.rs. -/
inductive ExecutionStatus where
  | Success : ExecutionStatus
  | Failure : ExecutionStatus
deriving DecidableEq

/-- Task row, from src/src/domain/mod.rs (struct Task). -/
structure Task where
  id : Nat
  name : String
  task_type : TaskType
  trigger_at : Int
  interval_seconds : Option Int
  payload : Json
  deleted_at : Option Int

/-- Execution row, from src/src/domain/mod.rs (struct Execution). -/
structure Execution where
  id : Nat
  task_id : Nat
  executed_at : Int
  output : Json
  status : ExecutionStatus

/-- The persistent store: the two SQLite tables. Task rows appear in
insertion order; execution rows are kept most-recent-first. -/
structure Store where
  tasks : List Task
  executions : List Execution

/-- Task::new_once from src/src/domain/mod.rs; the random Uuid is passed in. -/
def Task.new_once (id : Nat) (name : String) (trigger_at : Int) (payload : Json) : Task :=
  { id := id, name := name, task_type := .Once, trigger_at := trigger_at,
    interval_seconds := none, payload := payload, deleted_at := none }

/-- Task::new_interval from src/src/domain/mod.rs. -/
def Task.new_interval (id : Nat) (name : String) (trigger_at : Int)
    (interval_seconds : Int) (payload : Json) : Task :=
  { id := id, name := name, task_type := .Interval, trigger_at := trigger_at,
    interval_seconds := some interval_seconds, payload := payload, deleted_at := none }

/-- Database error shapes that the service distinguishes: a foreign-key
violation versus any other sqlx error. -/
inductive DbErr where
  | fkViolation : DbErr
  | other : DbErr
deriving DecidableEq

/-- AppError from src/src/errors.rs. -/
inductive AppError where
  | Database : DbErr → AppError
  | Config : String → AppError
  | NotFound : AppError
  | ValidationError : String → AppError

/-- Injected I/O failures for the fallible steps of process_task that the
store state cannot decide by itself. -/
structure Faults where
  insertExecErr : Option DbErr
  mutErr : Bool
  commitErr : Bool

/-- The fault assignment in which every injectable step succeeds. -/
def noFaults : Faults := { insertExecErr := none, mutErr := false, commitErr := false }

namespace TaskRepository

/-- TaskRepository::create_task (src/src/db/queries.rs): INSERT INTO tasks. -/
def create_task (task : Task) (s : Store) : Store :=
  { s with tasks := s.tasks ++ [task] }

/-- TaskRepository::get_task (src/src/db/queries.rs): SELECT ... WHERE id = ?,
first matching row or none. -/
def get_task (id : Nat) (s : Store) : Option Task :=
  s.tasks.find? (fun t => t.id == id)

/-- TaskRepository::delete_task_with_executor (src/src/db/queries.rs):
UPDATE tasks SET deleted_at = now WHERE id = ?; returns rows_affected and the
updated store. Note the WHERE clause filters on id only, not on deleted_at. -/
def delete_task_with_executor (now : Int) (id : Nat) (s : Store) : Nat × Store :=
  (s.tasks.countP (fun t => t.id == id),
   { s with tasks := s.tasks.map (fun t =>
      if t.id == id then { t with deleted_at := some now } else t) })

/-- TaskRepository::update_trigger_with_executor (src/src/db/queries.rs):
UPDATE tasks SET trigger_at = ? WHERE id = ?. -/
def update_trigger_with_executor (new_trigger_at : Int) (id : Nat) (s : Store) :
    Nat × Store :=
  (s.tasks.countP (fun t => t.id == id),
   { s with tasks := s.tasks.map (fun t =>
      if t.id == id then { t with trigger_at := new_trigger_at } else t) })

/-- Comparator step of ORDER BY trigger_at ASC LIMIT 1: keep the earlier of
two rows, stably preferring the earlier-inserted row on a tie. -/
def pickEarlier (a b : Task) : Task :=
  if b.trigger_at < a.trigger_at then b else a

/-- TaskRepository::get_next_pending_task (src/src/db/queries.rs):
SELECT ... WHERE deleted_at IS NULL ORDER BY trigger_at ASC LIMIT 1.
There is no filter on trigger_at. -/
def get_next_pending_task (s : Store) : Option Task :=
  match s.tasks.filter (fun t => t.deleted_at.isNone) with
  | [] => none
  | t :: ts => some (ts.foldl pickEarlier t)

end TaskRepository

/-- Output value recorded for one dispatch attempt (src/src/service/mod.rs
lines 125-128): the action result itself on success, an error object carrying
the failure reason on failure. -/
def actionOutput : Except String Json → Json
  | .ok v => v
  | .error e => .obj [("error", .str e)]

/-- Status recorded for one dispatch attempt (src/src/service/mod.rs
lines 125-128). -/
def actionStatus : Except String Json → ExecutionStatus
  | .ok _ => .Success
  | .error _ => .Failure

/-- Execution::new as used by process_task: fresh id, the processed task as
task_id, executed_at = now, and the output and status derived from the
action result. -/
def mkExecution (execId : Nat) (taskId : Nat) (now : Int)
    (actionResult : Except String Json) : Execution :=
  { id := execId, task_id := taskId, executed_at := now,
    output := actionOutput actionResult, status := actionStatus actionResult }

namespace TaskService

/-- TaskService::delete_task (src/src/service/mod.rs): soft delete, NotFound
when rows_affected = 0, else ok with the updated store. -/
def delete_task (now : Int) (id : Nat) (s : Store) : Except AppError Store :=
  let r := TaskRepository.delete_task_with_executor now id s
  if r.1 = 0 then .error .NotFound else .ok r.2

/-- CreateTaskReq from src/src/api/dto.rs. -/
structure CreateTaskReq where
  name : String
  task_type : String
  trigger_at : Int
  interval_seconds : Option Int
  payload : Option Json

/-- TaskService::create_task (src/src/service/mod.rs): validation in source
order, then DTO-to-domain mapping with payload defaulting, then the insert.
The random Uuid is passed in as newId. Returns the new id and the store. -/
def create_task (newId : Nat) (req : CreateTaskReq) (s : Store) :
    Except AppError (Nat × Store) :=
  if req.task_type = "once" then
    let payload := req.payload.getD (.obj [])
    let task := Task.new_once newId req.name req.trigger_at payload
    .ok (task.id, TaskRepository.create_task task s)
  else if req.task_type = "interval" then
    match req.interval_seconds with
    | some seconds =>
        if seconds < 1 then
          .error (.ValidationError "interval_seconds must be at least 1 second")
        else
          let payload := req.payload.getD (.obj [])
          let task := Task.new_interval newId req.name req.trigger_at seconds payload
          .ok (task.id, TaskRepository.create_task task s)
    | none => .error (.ValidationError "interval_seconds is required for interval tasks")
  else .error (.ValidationError "Invalid task_type. Use either once or interval")

/-- TaskService::process_task (src/src/service/mod.rs lines 118-189).
Executes the action (its outcome is the actionResult parameter), then in one
transaction inserts the Execution row and retires (Once) or reschedules
(Interval) the task; a foreign-key violation on the insert rolls back and
returns ok; any other database error rolls back and propagates. -/
def process_task (now : Int) (execId : Nat) (actionResult : Except String Json)
    (f : Faults) (task : Task) (s : Store) : Except AppError Unit × Store :=
  match
    (match f.insertExecErr with
     | some e => Except.error e
     | none =>
         if s.tasks.any (fun t => t.id == task.id) then
           Except.ok
             { s with executions := mkExecution execId task.id now actionResult :: s.executions }
         else Except.error DbErr.fkViolation : Except DbErr Store) with
  | .error .fkViolation => (.ok (), s)
  | .error .other => (.error (.Database .other), s)
  | .ok tx =>
      match task.task_type with
      | .Once =>
          if f.mutErr then (.error (.Database .other), s)
          else
            let tx2 := (TaskRepository.delete_task_with_executor now task.id tx).2
            if f.commitErr then (.error (.Database .other), s)
            else (.ok (), tx2)
      | .Interval =>
          match task.interval_seconds with
          | some seconds =>
              if f.mutErr then (.error (.Database .other), s)
              else
                let tx2 :=
                  (TaskRepository.update_trigger_with_executor (now + seconds) task.id tx).2
                if f.commitErr then (.error (.Database .other), s)
                else (.ok (), tx2)
          | none =>
              if f.commitErr then (.error (.Database .other), s)
              else (.ok (), tx)

end TaskService

/-- The GET /tasks handler list_tasks (src/src/api/mod.rs lines 131-160):
SELECT id,name,deleted_at FROM tasks, one summary object per row with exactly
the keys id, name and deleted_at. -/
def list_tasks (s : Store) : List Json :=
  s.tasks.map (fun t =>
    Json.obj [("id", .str (toString t.id)),
              ("name", .str t.name),
              ("deleted_at", match t.deleted_at with
                             | some d => .str (toString d)
                             | none => .null)])

/-- Which branch of the scheduler select wins (src/src/scheduler/mod.rs
lines 43-63): cancellation, the sleep timer, or the wake-up channel. -/
inductive SelectWinner where
  | cancelled : SelectWinner
  | timer : SelectWinner
  | wake : SelectWinner
deriving DecidableEq

/-- Outcome of one iteration of the run_scheduler loop: the loop either
breaks, or continues with a possible fixed backoff sleep (in seconds) and the
store as left by the iteration. -/
inductive StepOutcome where
  | stopped : StepOutcome
  | again : Nat → Store → StepOutcome

/-- Sleep-duration computation of run_scheduler (src/src/scheduler/mod.rs
lines 25-35): zero for a due task, trigger_at - now for a future task,
3600 seconds when no task is pending. -/
def sleep_duration (now : Int) (next : Option Task) : Int :=
  match next with
  | some task => if task.trigger_at ≤ now then 0 else task.trigger_at - now
  | none => 3600

/-- One iteration of run_scheduler (src/src/scheduler/mod.rs lines 15-64).
queryFails injects a get_next_pending_task database error: the code then
logs, sleeps 5 seconds and continues without reaching the select. Otherwise
the select runs: cancellation breaks the loop; the timer branch re-checks
trigger_at ≤ now and calls process_task, logging (and discarding) its error;
a wake-up just re-enters the loop. -/
def run_scheduler_step (queryFails : Bool) (w : SelectWinner) (now : Int)
    (execId : Nat) (actionResult : Except String Json) (f : Faults) (s : Store) :
    StepOutcome :=
  if queryFails then .again 5 s
  else
    let next := TaskRepository.get_next_pending_task s
    match w with
    | .cancelled => .stopped
    | .wake => .again 0 s
    | .timer =>
        match next with
        | none => .again 0 s
        | some task =>
            if task.trigger_at ≤ now then
              .again 0 (TaskService.process_task now execId actionResult f task s).2
            else .again 0 s

/-- The task mutation that process_task performs inside its transaction,
factored out: retire a Once task, reschedule an Interval task with a known
interval, and leave the table untouched for an Interval task whose
interval_seconds column is NULL. -/
def taskMutation (now : Int) (task : Task) (s : Store) : Store :=
  match task.task_type with
  | .Once => (TaskRepository.delete_task_with_executor now task.id s).2
  | .Interval =>
      match task.interval_seconds with
      | some seconds =>
          (TaskRepository.update_trigger_with_executor (now + seconds) task.id s).2
      | none => s

/-- Recognizer for the ValidationError variant of a service result. -/
def isValidationError {α : Type} : Except AppError α → Bool
  | .error (.ValidationError _) => true
  | _ => false

/-- Statement of the validation rule taken from the words of the spec
(section 4.2): the request is rejected exactly when task_type is neither
once nor interval, or task_type is interval and interval_seconds is missing
or below 1. This definition follows the spec, not the source; the claim
compares it with TaskService.create_task. -/
def requestRejected_spec (req : TaskService.CreateTaskReq) : Prop :=
  (req.task_type ≠ "once" ∧ req.task_type ≠ "interval") ∨
  (req.task_type = "interval" ∧
    (req.interval_seconds = none ∨ ∃ k, req.interval_seconds = some k ∧ k < 1))

/-- Sample task: already retired (deleted_at set) at time 5. -/
def retiredTask : Task :=
  { id := 0, name := "a", task_type := .Once, trigger_at := 0,
    interval_seconds := none, payload := .obj [], deleted_at := some 5 }

/-- Sample store holding only the retired task. -/
def retiredStore : Store := { tasks := [retiredTask], executions := [] }

/-- Sample store holding one retired task with id 3, for the GET /tasks
summaries. -/
def summaryStore : Store :=
  { tasks := [{ id := 3, name := "b", task_type := .Once, trigger_at := 2,
                interval_seconds := none, payload := .obj [], deleted_at := some 7 }],
    executions := [] }

/-- Sample live task whose trigger lies in the future. -/
def futureTask : Task :=
  { id := 4, name := "future", task_type := .Once, trigger_at := 9999,
    interval_seconds := none, payload := .obj [], deleted_at := none }

/-- Sample store whose only live task is scheduled in the future. -/
def futureStore : Store := { tasks := [futureTask], executions := [] }

/-- Sample interval task: every 60 seconds, first trigger at 0. -/
def intervalTask : Task :=
  { id := 1, name := "tick", task_type := .Interval, trigger_at := 0,
    interval_seconds := some 60, payload := .obj [], deleted_at := none }

/-- Sample store holding the interval task. -/
def intervalStore : Store := { tasks := [intervalTask], executions := [] }

/-- Sample interval task violating the data-model invariant: its
interval_seconds column is NULL. -/
def badIntervalTask : Task :=
  { id := 2, name := "bad", task_type := .Interval, trigger_at := 10,
    interval_seconds := none, payload := .obj [], deleted_at := none }

/-- Sample store holding only the invariant-violating interval task. -/
def badIntervalStore : Store := { tasks := [badIntervalTask], executions := [] }

/-- Sample store with no rows at all. -/
def emptyStore : Store := { tasks := [], executions := [] }

/-- Sample valid interval-creation request carrying no payload. -/
def sampleReq : TaskService.CreateTaskReq :=
  { name := "r", task_type := "interval", trigger_at := 50,
    interval_seconds := some 30, payload := none }

theorem pickEarlier_le_left (a b : Task) :
    (TaskRepository.pickEarlier a b).trigger_at ≤ a.trigger_at := by
  unfold TaskRepository.pickEarlier
  split <;> omega

theorem pickEarlier_le_right (a b : Task) :
    (TaskRepository.pickEarlier a b).trigger_at ≤ b.trigger_at := by
  unfold TaskRepository.pickEarlier
  split <;> omega

theorem pickEarlier_eq_or (a b : Task) :
    TaskRepository.pickEarlier a b = a ∨ TaskRepository.pickEarlier a b = b := by
  unfold TaskRepository.pickEarlier
  split
  · exact Or.inr rfl
  · exact Or.inl rfl

theorem foldl_pickEarlier_mem (ts : List Task) (a : Task) :
    ts.foldl TaskRepository.pickEarlier a = a ∨ ts.foldl TaskRepository.pickEarlier a ∈ ts := by
  induction ts generalizing a with
  | nil => exact Or.inl rfl
  | cons b bs ih =>
    simp only [List.foldl_cons]
    rcases ih (TaskRepository.pickEarlier a b) with h | h
    · rw [h]
      rcases pickEarlier_eq_or a b with h2 | h2
      · exact Or.inl h2
      · rw [h2]; exact Or.inr (List.mem_cons_self b bs)
    · exact Or.inr (List.mem_cons_of_mem b h)

theorem foldl_pickEarlier_le_init (ts : List Task) (a : Task) :
    (ts.foldl TaskRepository.pickEarlier a).trigger_at ≤ a.trigger_at := by
  induction ts generalizing a with
  | nil => exact le_refl _
  | cons b bs ih =>
    simp only [List.foldl_cons]
    exact le_trans (ih (TaskRepository.pickEarlier a b)) (pickEarlier_le_left a b)

theorem foldl_pickEarlier_le_mem (ts : List Task) (a : Task) :
    ∀ u ∈ ts, (ts.foldl TaskRepository.pickEarlier a).trigger_at ≤ u.trigger_at := by
  induction ts generalizing a with
  | nil => intro u hu; cases hu
  | cons b bs ih =>
    intro u hu
    simp only [List.foldl_cons]
    rcases List.mem_cons.mp hu with rfl | hu2
    · exact le_trans (foldl_pickEarlier_le_init bs _) (pickEarlier_le_right a u)
    · exact ih _ u hu2

/-- C4: get_next_pending_task returns absent exactly when no live task
exists (there is no filter on trigger_at, so a future-only store still yields
a task), and any returned task is a live task of the store with minimal
trigger_at among all live tasks. -/
theorem C4_get_next_pending_earliest_live (s : Store) :
    (TaskRepository.get_next_pending_task s = none ↔
      ∀ t ∈ s.tasks, t.deleted_at ≠ none) ∧
    ∀ t, TaskRepository.get_next_pending_task s = some t →
      t ∈ s.tasks ∧ t.deleted_at = none ∧
      ∀ u ∈ s.tasks, u.deleted_at = none → t.trigger_at ≤ u.trigger_at := by
  unfold TaskRepository.get_next_pending_task
  cases hf : s.tasks.filter (fun t => t.deleted_at.isNone) with
  | nil =>
    have hall : ∀ t ∈ s.tasks, t.deleted_at ≠ none := by
      intro t ht hnone
      have hmem : t ∈ s.tasks.filter (fun t => t.deleted_at.isNone) :=
        List.mem_filter.mpr ⟨ht, by simp [hnone]⟩
      rw [hf] at hmem
      cases hmem
    exact ⟨⟨fun _ => hall, fun _ => rfl⟩, fun t ht => Option.noConfusion ht⟩
  | cons t0 ts =>
    have hmem0 : ∀ u, u ∈ t0 :: ts → u ∈ s.tasks ∧ u.deleted_at = none := by
      intro u hu
      have : u ∈ s.tasks.filter (fun t => t.deleted_at.isNone) := by rw [hf]; exact hu
      have h2 := List.mem_filter.mp this
      exact ⟨h2.1, Option.isNone_iff_eq_none.mp h2.2⟩
    constructor
    · constructor
      · intro h; cases h
      · intro hall
        exfalso
        exact hall t0 (hmem0 t0 (List.mem_cons_self t0 ts)).1 (hmem0 t0 (List.mem_cons_self t0 ts)).2
    · intro t ht
      have hrt : ts.foldl TaskRepository.pickEarlier t0 = t := Option.some.inj ht
      have hr_mem : t ∈ t0 :: ts := by
        rw [← hrt]
        rcases foldl_pickEarlier_mem ts t0 with h | h
        · rw [h]; exact List.mem_cons_self t0 ts
        · exact List.mem_cons_of_mem t0 h
      refine ⟨(hmem0 t hr_mem).1, (hmem0 t hr_mem).2, ?_⟩
      intro u hu hudel
      have humem : u ∈ t0 :: ts := by
        have : u ∈ s.tasks.filter (fun t => t.deleted_at.isNone) :=
          List.mem_filter.mpr ⟨hu, by simp [hudel]⟩
        rw [hf] at this; exact this
      rw [← hrt]
      rcases List.mem_cons.mp humem with rfl | hu2
      · exact foldl_pickEarlier_le_init ts u
      · exact foldl_pickEarlier_le_mem ts t0 u hu2

/-- Witness for C4: in a store whose only live task is scheduled in the
future, get_next_pending_task returns that future task rather than none, and
it is minimal among live tasks. -/
theorem C4_witness :
    TaskRepository.get_next_pending_task futureStore = some futureTask ∧
    (futureTask ∈ futureStore.tasks ∧ futureTask.deleted_at = none ∧
      ∀ u ∈ futureStore.tasks, u.deleted_at = none →
        futureTask.trigger_at ≤ u.trigger_at) :=
  ⟨rfl, (C4_get_next_pending_earliest_live futureStore).2 futureTask rfl⟩

/-- C3 counterexample: on a store whose only task is already soft-deleted
(deleted_at = 5), a further soft delete still reports 1 row affected, and
Service.delete_task returns ok (re-stamping deleted_at to the new time)
instead of the NotFound the claim predicts. -/
theorem C3_counterexample :
    (TaskRepository.delete_task_with_executor 10 0 retiredStore).1 = 1 ∧
    TaskService.delete_task 10 0 retiredStore =
      .ok { tasks := [{ retiredTask with deleted_at := some 10 }], executions := [] } := by
  constructor <;> rfl

/-- C3 amended: the soft-delete UPDATE filters on id only, not on
deleted_at, so rows_affected is 0 exactly when no row with the id exists
(an already-retired row still counts), and Service.delete_task returns
NotFound exactly when no row with the id exists; a second delete of an
existing id therefore succeeds again. -/
theorem C3_soft_delete_matches_by_id (now : Int) (id : Nat) (s : Store) :
    ((TaskRepository.delete_task_with_executor now id s).1 = 0 ↔
      ∀ t ∈ s.tasks, t.id ≠ id) ∧
    (TaskService.delete_task now id s = .error .NotFound ↔
      ∀ t ∈ s.tasks, t.id ≠ id) := by
  have hcount : (TaskRepository.delete_task_with_executor now id s).1 = 0 ↔
      ∀ t ∈ s.tasks, t.id ≠ id := by
    unfold TaskRepository.delete_task_with_executor
    simp [List.countP_eq_zero]
  refine ⟨hcount, ?_⟩
  unfold TaskService.delete_task
  by_cases h : (TaskRepository.delete_task_with_executor now id s).1 = 0
  · simp only [h, if_pos rfl]
    simpa using hcount.mp h
  · simp only [if_neg h]
    constructor
    · intro hcontra; cases hcontra
    · intro hall; exact absurd (hcount.mpr hall) h

/-- Witness for C3 amended at the already-retired sample store. -/
theorem C3_witness :
    ((TaskRepository.delete_task_with_executor 10 0 retiredStore).1 = 0 ↔
      ∀ t ∈ retiredStore.tasks, t.id ≠ 0) ∧
    (TaskService.delete_task 10 0 retiredStore = .error .NotFound ↔
      ∀ t ∈ retiredStore.tasks, t.id ≠ 0) :=
  C3_soft_delete_matches_by_id 10 0 retiredStore

/-- C8 counterexample: the GET /tasks handler produces summaries with
exactly the keys id, name and deleted_at; the summary of the sample retired
task carries no status key at all, refuting the claimed
status = active or deleted field. -/
theorem C8_counterexample :
    list_tasks summaryStore =
      [Json.obj [("id", .str "3"), ("name", .str "b"), ("deleted_at", .str "7")]] ∧
    Json.getKey
      (Json.obj [("id", .str "3"), ("name", .str "b"), ("deleted_at", .str "7")])
      "status" = none := by
  constructor <;> rfl

/-- C8 amended: GET /tasks returns one summary per task row, retired rows
included; each summary exposes id, name and deleted_at (null for a live
task), and no status field is present. -/
theorem C8_list_tasks_no_status_field (s : Store) :
    (list_tasks s).length = s.tasks.length ∧
    ∀ t ∈ s.tasks, ∃ j ∈ list_tasks s,
      j.getKey "id" = some (.str (toString t.id)) ∧
      j.getKey "name" = some (.str t.name) ∧
      j.getKey "deleted_at" =
        some (match t.deleted_at with | some d => .str (toString d) | none => .null) ∧
      j.getKey "status" = none := by
  constructor
  · simp [list_tasks]
  · intro t ht
    exact ⟨_, List.mem_map_of_mem _ ht, rfl, rfl, rfl, rfl⟩

/-- C5: create_task rejects with ValidationError exactly the requests the
spec calls invalid (unknown task_type, or interval with missing or sub-1
interval_seconds), and a request without a payload behaves identically to
one carrying an explicit empty object: the payload is defaulted, never
rejected. -/
theorem C5_create_task_validation (newId : Nat) (req : TaskService.CreateTaskReq)
    (s : Store) :
    (isValidationError (TaskService.create_task newId req s) = true ↔
      requestRejected_spec req) ∧
    TaskService.create_task newId { req with payload := none } s =
      TaskService.create_task newId { req with payload := some (.obj []) } s := by
  obtain ⟨n, tt, tr, iv, pl⟩ := req
  constructor
  · by_cases h1 : tt = "once"
    · subst h1
      simp [TaskService.create_task, isValidationError, requestRejected_spec]
    · by_cases h2 : tt = "interval"
      · subst h2
        cases iv with
        | none =>
          simp [TaskService.create_task, isValidationError, requestRejected_spec]
        | some k =>
          by_cases hk : k < 1
          · simp [TaskService.create_task, isValidationError, requestRejected_spec, hk]
          · simp [TaskService.create_task, isValidationError, requestRejected_spec, hk]
      · simp [TaskService.create_task, isValidationError, requestRejected_spec, h1, h2]
  · by_cases h1 : tt = "once"
    · subst h1; rfl
    · by_cases h2 : tt = "interval"
      · subst h2
        cases iv with
        | none => rfl
        | some k =>
          by_cases hk : k < 1
          · simp [TaskService.create_task, hk]
          · simp [TaskService.create_task, hk]
      · simp [TaskService.create_task, h1, h2]

/-- C7: with the execution insert failing by foreign-key violation the whole
transaction rolls back and process_task returns ok with the store untouched
(whatever later faults would have occurred); any other database error from
the insert propagates as a storage error with the store untouched; and a
structurally missing task row (the foreign key cannot be satisfied) is the
same silent rollback. -/
theorem C7_fk_violation_rollback (now : Int) (execId : Nat) (ar : Except String Json)
    (task : Task) (s : Store)
    (hmiss : s.tasks.any (fun t => t.id == task.id) = false) :
    (∀ m c, TaskService.process_task now execId ar ⟨some .fkViolation, m, c⟩ task s =
      (.ok (), s)) ∧
    (∀ m c, TaskService.process_task now execId ar ⟨some .other, m, c⟩ task s =
      (.error (.Database .other), s)) ∧
    TaskService.process_task now execId ar noFaults task s = (.ok (), s) := by
  refine ⟨fun m c => rfl, fun m c => rfl, ?_⟩
  simp [TaskService.process_task, noFaults, hmiss]

/-- Witness for C7 at a store with no task rows (the foreign key for any
task id is unsatisfiable). -/
theorem C7_witness :
    emptyStore.tasks.any (fun t => t.id == futureTask.id) = false ∧
    ((∀ m c, TaskService.process_task 0 8 (.ok .null) ⟨some .fkViolation, m, c⟩
        futureTask emptyStore = (.ok (), emptyStore)) ∧
     (∀ m c, TaskService.process_task 0 8 (.ok .null) ⟨some .other, m, c⟩
        futureTask emptyStore = (.error (.Database .other), emptyStore)) ∧
     TaskService.process_task 0 8 (.ok .null) noFaults futureTask emptyStore =
       (.ok (), emptyStore)) :=
  ⟨rfl, C7_fk_violation_rollback 0 8 (.ok .null) futureTask emptyStore rfl⟩

/-- C2: processing an Interval task with interval_seconds = K (K at least 1)
returns ok, inserts exactly one new Execution row, and rewrites the task row
trigger_at to now + K, where now is the processing-time clock value, not the
old trigger_at. -/
theorem C2_interval_wall_clock_reschedule (now : Int) (execId : Nat)
    (ar : Except String Json) (task : Task) (s : Store) (K : Int)
    (htype : task.task_type = .Interval) (hK : task.interval_seconds = some K)
    (_hK1 : 1 ≤ K) (hrow : s.tasks.any (fun t => t.id == task.id) = true) :
    (TaskService.process_task now execId ar noFaults task s).1 = .ok () ∧
    (TaskService.process_task now execId ar noFaults task s).2.executions =
      mkExecution execId task.id now ar :: s.executions ∧
    (TaskService.process_task now execId ar noFaults task s).2.tasks =
      s.tasks.map (fun t =>
        if t.id == task.id then { t with trigger_at := now + K } else t) := by
  simp [TaskService.process_task, noFaults, hrow, htype, hK,
        TaskRepository.update_trigger_with_executor]

/-- Witness for C2: the sample interval task (interval 60, old trigger 0)
processed at clock 100 is rescheduled to 160 = now + K, with one new
execution row. -/
theorem C2_witness :
    (intervalTask.task_type = .Interval ∧ intervalTask.interval_seconds = some 60 ∧
      (1:Int) ≤ 60 ∧
      intervalStore.tasks.any (fun t => t.id == intervalTask.id) = true) ∧
    ((TaskService.process_task 100 9 (.ok .null) noFaults intervalTask intervalStore).1 =
        .ok () ∧
     (TaskService.process_task 100 9 (.ok .null) noFaults intervalTask
        intervalStore).2.executions =
        mkExecution 9 intervalTask.id 100 (.ok .null) :: intervalStore.executions ∧
     (TaskService.process_task 100 9 (.ok .null) noFaults intervalTask
        intervalStore).2.tasks =
        intervalStore.tasks.map (fun t =>
          if t.id == intervalTask.id then { t with trigger_at := 100 + 60 } else t)) :=
  ⟨⟨rfl, rfl, by decide, rfl⟩,
   C2_interval_wall_clock_reschedule 100 9 (.ok .null) intervalTask intervalStore 60
     rfl rfl (by decide) rfl⟩

/-- C10: an Interval task whose interval_seconds column is NULL (violating
the data-model invariant) is still processed: the Execution row is inserted
and committed, process_task returns ok, the tasks table is left entirely
unchanged (trigger_at and deleted_at keep their prior values), and the
next-pending query answers exactly as before. -/
theorem C10_null_interval_frame (now : Int) (execId : Nat) (ar : Except String Json)
    (task : Task) (s : Store)
    (htype : task.task_type = .Interval) (hnone : task.interval_seconds = none)
    (hrow : s.tasks.any (fun t => t.id == task.id) = true) :
    TaskService.process_task now execId ar noFaults task s =
      (.ok (), { s with executions := mkExecution execId task.id now ar :: s.executions }) ∧
    (TaskService.process_task now execId ar noFaults task s).2.tasks = s.tasks ∧
    TaskRepository.get_next_pending_task
        (TaskService.process_task now execId ar noFaults task s).2 =
      TaskRepository.get_next_pending_task s := by
  have h1 : TaskService.process_task now execId ar noFaults task s =
      (.ok (), { s with executions := mkExecution execId task.id now ar :: s.executions }) := by
    simp [TaskService.process_task, noFaults, hrow, htype, hnone]
  refine ⟨h1, ?_, ?_⟩ <;> rw [h1]
  rfl

/-- Witness for C10 at the invariant-violating sample task: its store is
left with the same single task row and one new execution. -/
theorem C10_witness :
    (badIntervalTask.task_type = .Interval ∧
      badIntervalTask.interval_seconds = none ∧
      badIntervalStore.tasks.any (fun t => t.id == badIntervalTask.id) = true) ∧
    (TaskService.process_task 20 11 (.ok .null) noFaults badIntervalTask badIntervalStore =
      (.ok (), { badIntervalStore with
        executions := mkExecution 11 badIntervalTask.id 20 (.ok .null) ::
          badIntervalStore.executions }) ∧
     (TaskService.process_task 20 11 (.ok .null) noFaults badIntervalTask
        badIntervalStore).2.tasks = badIntervalStore.tasks ∧
     TaskRepository.get_next_pending_task
        (TaskService.process_task 20 11 (.ok .null) noFaults badIntervalTask
          badIntervalStore).2 =
       TaskRepository.get_next_pending_task badIntervalStore) :=
  ⟨⟨rfl, rfl, rfl⟩,
   C10_null_interval_frame 20 11 (.ok .null) badIntervalTask badIntervalStore rfl rfl rfl⟩

/-- C6: an action failure with reason r is recorded, not propagated: the
Except part of process_task is identical to what the same call would return
had the action succeeded (so the failure alone never produces an error), and
on the fault-free path the committed Execution row carries status failure
and output obj [(error, r)]. -/
theorem C6_action_failure_recorded (now : Int) (execId : Nat) (r : String) (v : Json)
    (f : Faults) (task : Task) (s : Store)
    (hrow : s.tasks.any (fun t => t.id == task.id) = true) :
    (TaskService.process_task now execId (.error r) f task s).1 =
      (TaskService.process_task now execId (.ok v) f task s).1 ∧
    (TaskService.process_task now execId (.error r) noFaults task s).2.executions =
      { id := execId, task_id := task.id, executed_at := now,
        output := .obj [("error", .str r)], status := .Failure } :: s.executions := by
  obtain ⟨ie, me, ce⟩ := f
  constructor
  · cases ie with
    | some e => cases e <;> rfl
    | none =>
      cases htt : task.task_type with
      | Once =>
        cases me <;> cases ce <;>
          simp [TaskService.process_task, hrow, htt]
      | Interval =>
        cases hiv : task.interval_seconds with
        | none =>
          cases me <;> cases ce <;>
            simp [TaskService.process_task, hrow, htt, hiv]
        | some k =>
          cases me <;> cases ce <;>
            simp [TaskService.process_task, hrow, htt, hiv]
  · cases htt : task.task_type with
    | Once =>
      simp [TaskService.process_task, noFaults, hrow, htt, mkExecution,
            actionOutput, actionStatus, TaskRepository.delete_task_with_executor]
    | Interval =>
      cases hiv : task.interval_seconds with
      | none =>
        simp [TaskService.process_task, noFaults, hrow, htt, hiv, mkExecution,
              actionOutput, actionStatus]
      | some k =>
        simp [TaskService.process_task, noFaults, hrow, htt, hiv, mkExecution,
              actionOutput, actionStatus, TaskRepository.update_trigger_with_executor]

/-- Witness for C6: processing the sample interval task with a failing
action records a failure row and returns exactly what a successful action
would have returned. -/
theorem C6_witness :
    intervalStore.tasks.any (fun t => t.id == intervalTask.id) = true ∧
    ((TaskService.process_task 100 12 (.error "boom") noFaults intervalTask
        intervalStore).1 =
      (TaskService.process_task 100 12 (.ok .null) noFaults intervalTask
        intervalStore).1 ∧
     (TaskService.process_task 100 12 (.error "boom") noFaults intervalTask
        intervalStore).2.executions =
      { id := 12, task_id := intervalTask.id, executed_at := 100,
        output := .obj [("error", .str "boom")], status := .Failure } ::
        intervalStore.executions) :=
  ⟨rfl, C6_action_failure_recorded 100 12 "boom" .null noFaults intervalTask
    intervalStore rfl⟩

/-- C1: process_task is atomic for every fault assignment: the final store
is either exactly the original store (full rollback) or exactly the original
store with the one new Execution row inserted and the task mutation (retire
or reschedule) applied; and whenever the mutation step fails the store is
the original one, so no new Execution row is observable. Stated for tasks
whose kind determines a real mutation (Once, or Interval with a known
interval). -/
theorem C1_process_task_atomic (now : Int) (execId : Nat) (ar : Except String Json)
    (f : Faults) (task : Task) (s : Store)
    (hmut : task.task_type = .Once ∨ task.interval_seconds.isSome = true) :
    ((TaskService.process_task now execId ar f task s).2 = s ∨
      (TaskService.process_task now execId ar f task s).2 =
        taskMutation now task
          { s with executions := mkExecution execId task.id now ar :: s.executions }) ∧
    (f.mutErr = true → (TaskService.process_task now execId ar f task s).2 = s) := by
  obtain ⟨ie, me, ce⟩ := f
  cases ie with
  | some e =>
    cases e <;> exact ⟨Or.inl rfl, fun _ => rfl⟩
  | none =>
    by_cases hrow : s.tasks.any (fun t => t.id == task.id) = true
    · cases htt : task.task_type with
      | Once =>
        cases me with
        | true =>
          constructor
          · exact Or.inl (by simp [TaskService.process_task, hrow, htt])
          · intro _; simp [TaskService.process_task, hrow, htt]
        | false =>
          cases ce with
          | true =>
            constructor
            · exact Or.inl (by simp [TaskService.process_task, hrow, htt])
            · intro h; cases h
          | false =>
            constructor
            · exact Or.inr (by simp [TaskService.process_task, taskMutation, hrow, htt])
            · intro h; cases h
      | Interval =>
        cases hiv : task.interval_seconds with
        | none =>
          rcases hmut with hcontra | hcontra
          · rw [htt] at hcontra; cases hcontra
          · rw [hiv] at hcontra; cases hcontra
        | some k =>
          cases me with
          | true =>
            constructor
            · exact Or.inl (by simp [TaskService.process_task, hrow, htt, hiv])
            · intro _; simp [TaskService.process_task, hrow, htt, hiv]
          | false =>
            cases ce with
            | true =>
              constructor
              · exact Or.inl (by simp [TaskService.process_task, hrow, htt, hiv])
              · intro h; cases h
            | false =>
              constructor
              · exact Or.inr
                  (by simp [TaskService.process_task, taskMutation, hrow, htt, hiv])
              · intro h; cases h
    · have hrow2 : s.tasks.any (fun t => t.id == task.id) = false :=
        Bool.not_eq_true _ ▸ eq_false_of_ne_true hrow
      constructor
      · exact Or.inl (by simp [TaskService.process_task, hrow2])
      · intro _; simp [TaskService.process_task, hrow2]

/-- Witness for C1: with an injected mutation-step failure on the sample
interval task the store is returned unchanged, in particular without the new
Execution row. -/
theorem C1_witness :
    (intervalTask.task_type = .Once ∨ intervalTask.interval_seconds.isSome = true) ∧
    (((TaskService.process_task 100 13 (.ok .null) ⟨none, true, false⟩ intervalTask
        intervalStore).2 = intervalStore ∨
      (TaskService.process_task 100 13 (.ok .null) ⟨none, true, false⟩ intervalTask
        intervalStore).2 =
        taskMutation 100 intervalTask
          { intervalStore with
            executions := mkExecution 13 intervalTask.id 100 (.ok .null) ::
              intervalStore.executions }) ∧
     ((⟨none, true, false⟩ : Faults).mutErr = true →
      (TaskService.process_task 100 13 (.ok .null) ⟨none, true, false⟩ intervalTask
        intervalStore).2 = intervalStore)) :=
  ⟨Or.inr rfl,
   C1_process_task_atomic 100 13 (.ok .null) ⟨none, true, false⟩ intervalTask
     intervalStore (Or.inr rfl)⟩

/-- C9: one scheduler iteration ends the loop exactly when the next-pending
query succeeded and the select was won by cancellation; a query error makes
the iteration continue after the fixed 5-second backoff; and in every other
case, including a process_task error in the timer branch, the loop
continues. -/
theorem C9_scheduler_stops_only_on_cancel (queryFails : Bool) (w : SelectWinner)
    (now : Int) (execId : Nat) (ar : Except String Json) (f : Faults) (s : Store) :
    (run_scheduler_step queryFails w now execId ar f s = .stopped ↔
      queryFails = false ∧ w = .cancelled) ∧
    (queryFails = true → run_scheduler_step queryFails w now execId ar f s = .again 5 s) := by
  constructor
  · cases queryFails with
    | true => simp [run_scheduler_step]
    | false =>
      cases w with
      | cancelled => simp [run_scheduler_step]
      | wake => simp [run_scheduler_step]
      | timer =>
        cases hq : TaskRepository.get_next_pending_task s with
        | none => simp [run_scheduler_step, hq]
        | some task =>
          by_cases hd : task.trigger_at ≤ now <;> simp [run_scheduler_step, hq, hd]
  · intro hq
    simp [run_scheduler_step, hq]

/-- Witness for C9: with a successful query and cancellation winning the
select, the iteration stops; the backoff implication is vacuous there. -/
theorem C9_witness :
    (run_scheduler_step false .cancelled 0 0 (.ok .null) noFaults emptyStore = .stopped ↔
      false = false ∧ SelectWinner.cancelled = .cancelled) ∧
    (false = true →
      run_scheduler_step false .cancelled 0 0 (.ok .null) noFaults emptyStore =
        .again 5 emptyStore) :=
  C9_scheduler_stops_only_on_cancel false .cancelled 0 0 (.ok .null) noFaults emptyStore

/-- Witness for C5 at the sample payload-free interval request: no
validation error, and the missing payload is treated as the empty object. -/
theorem C5_witness :
    (isValidationError (TaskService.create_task 21 sampleReq emptyStore) = true ↔
      requestRejected_spec sampleReq) ∧
    TaskService.create_task 21 { sampleReq with payload := none } emptyStore =
      TaskService.create_task 21 { sampleReq with payload := some (.obj []) } emptyStore :=
  C5_create_task_validation 21 sampleReq emptyStore

/-- Witness for C8 amended at the sample store holding one retired task. -/
theorem C8_witness :
    (list_tasks summaryStore).length = summaryStore.tasks.length ∧
    ∀ t ∈ summaryStore.tasks, ∃ j ∈ list_tasks summaryStore,
      j.getKey "id" = some (.str (toString t.id)) ∧
      j.getKey "name" = some (.str t.name) ∧
      j.getKey "deleted_at" =
        some (match t.deleted_at with | some d => .str (toString d) | none => .null) ∧
      j.getKey "status" = none :=
  C8_list_tasks_no_status_field summaryStore

end Scheduler
